import Mathlib

/-!
Verification of the repository locking core (internal/restic/lock.go).

Shallow embedding conventions:
* durations are measured in milliseconds (Nat), timestamps in milliseconds (Int);
* the blob store holding lock objects is external to the repository sources,
  so it is modelled from the spec (flat set / list of objects, `save` returns a
  fresh id, `remove` is idempotent, `list` enumerates);
* context cancellation is modelled as a boolean schedule indexed by the
  iteration of the retry loop;
* platform probes (hostname, user lookup, process liveness) are parameters.
-/

namespace ResticLock

/-- Settle delay before the post-acquisition lock check, lock.go line 89
(200 milliseconds, time.Sleep duration). -/
def waitBeforeLockCheck : Nat := 200

/-- Initial delay between lock-scan retries, lock.go line 92 (5 seconds, in
milliseconds); the delay doubles on each retry. -/
def initialWaitBetweenLockRetries : Nat := 5000

/-- Age threshold for staleness, lock.go line 252 (30 minutes, in
milliseconds). -/
def StaleLockTimeout : Int := 1800000

/-- Grace window for cleanup after cancellation, lock.go line 21 (1 minute,
in milliseconds). -/
def UnlockCancelDelay : Nat := 60000

/-- Lock descriptor, the serializable fields of `Lock` in lock.go lines 31-43.
The store-assigned lock id is tracked separately by the operation models. -/
structure LockData where
  Time : Int := 0
  Exclusive : Bool := false
  Hostname : String := ""
  Username : String := ""
  PID : Nat := 0
  UID : Nat := 0
  GID : Nat := 0
deriving DecidableEq

/-- Staleness oracle, `Lock.Stale` in lock.go lines 257-288.  `now` is the
current wall time, `currentHostname` the result of os.Hostname (none on
failure), `processAlive` the result of the platform process probe (which is
consulted only on the same-host path). -/
def Stale (l : LockData) (now : Int) (currentHostname : Option String)
    (processAlive : Bool) : Bool :=
  if now - l.Time > StaleLockTimeout then true
  else
    match currentHostname with
    | none =>
      -- cannot find the current hostname: assume the lock is not stale
      false
    | some hn =>
      if hn ≠ l.Hostname then
        -- created on a different host: assume the lock is not stale
        false
      else if processAlive = false then true
      else false

/-- Claim C7: `Stale` returns true iff the descriptor is more than 30 minutes
older than now, or the current hostname is determined, equals the descriptor's
hostname and the recorded process is not alive; when the hostname cannot be
determined only the age criterion applies (in particular a fresh lock is
classified not stale), and likewise for a lock from a different host. -/
theorem stale_iff (l : LockData) (now : Int) (hn : Option String)
    (alive : Bool) :
    (Stale l now hn alive = true ↔
      now - l.Time > StaleLockTimeout ∨
        (hn = some l.Hostname ∧ alive = false))
    ∧ (hn = none → now - l.Time ≤ StaleLockTimeout →
        Stale l now hn alive = false)
    ∧ (∀ h : String, hn = some h → h ≠ l.Hostname →
        (Stale l now hn alive = true ↔ now - l.Time > StaleLockTimeout)) := by
  unfold Stale
  refine ⟨?_, ?_, ?_⟩
  · by_cases hold : now - l.Time > StaleLockTimeout
    · simp [hold]
    · simp only [hold, if_false]
      cases hn with
      | none => simp [hold]
      | some h =>
        by_cases hh : h = l.Hostname
        · subst hh
          cases alive <;> simp [hold]
        · simp [hh, hold]
  · intro h1 h2
    subst h1
    simp [not_lt.mpr h2]
  · intro h h1 h2
    subst h1
    by_cases hold : now - l.Time > StaleLockTimeout
    · simp [hold]
    · simp [hold, h2]

/-- Concrete instance of `stale_iff`: a lock from an undetermined current
hostname, 30 minutes plus 1 ms old, is stale by age. -/
theorem stale_iff_witness :
    Stale { Time := 0 } 1800001 none true = true :=
  (stale_iff { Time := 0 } 1800001 none true).1.mpr (Or.inl (by decide))

/-! ## Conflict scanner (checkForOtherLocks, ForAllLocks) -/

/-- Result of loading a single lock object.  `invalidData` corresponds to
ErrInvalidData (malformed lock file); `transport` to any other load failure;
`ctxCanceled` to the context error the parallel lister returns when the
context is cancelled. -/
inductive LoadErr where
  | invalidData
  | transport
  | ctxCanceled
deriving DecidableEq

instance {ε α : Type} [DecidableEq ε] [DecidableEq α] :
    DecidableEq (Except ε α) := fun a b =>
  match a, b with
  | .ok x, .ok y =>
    if h : x = y then .isTrue (by rw [h]) else .isFalse (by simp [h])
  | .error x, .error y =>
    if h : x = y then .isTrue (by rw [h]) else .isFalse (by simp [h])
  | .ok _, .error _ => .isFalse (by simp)
  | .error _, .ok _ => .isFalse (by simp)

/-- A lock object as enumerated by the store lister: its id, its size in
bytes, and the outcome of loading it.  Modelled from the spec: the store
contract (§4.4) lists ids with sizes and loads objects, distinguishing
malformed data from transport errors. -/
structure StoreObj where
  id : Nat
  size : Nat
  load : Except LoadErr LockData
deriving DecidableEq

/-- Classification of a single lock object by the scanner. -/
inductive ObjClass where
  | skip
  | keep (lock : LockData)
  | conflict (other : LockData)
  | failed (e : LoadErr)
deriving DecidableEq

/-- Per-object step of the scan: the skip rules of `ForAllLocks`
(lock.go lines 444-453: excluded ids and zero-size objects) followed by the
callback of `checkForOtherLocks` (lock.go lines 180-201). -/
def classifyLockObj (wantExclusive : Bool) (checked : List Nat)
    (o : StoreObj) : ObjClass :=
  if o.id ∈ checked then .skip
  else if o.size = 0 then
    -- ignore empty lock files left behind by interrupted uploads
    .skip
  else
    match o.load with
    | .error e => .failed e
    | .ok lock =>
      if wantExclusive then .conflict lock
      else if lock.Exclusive then .conflict lock
      else .keep lock

/-- Error outcome of a whole scan attempt. -/
inductive AttemptErr where
  | conflict (other : LockData)
  | err (e : LoadErr)
deriving DecidableEq

/-- One pass of `ForAllLocks` with the `checkForOtherLocks` callback:
objects are processed in enumeration order; ids of compatible locks are
accumulated (the callback inserts into newCheckedIDs); the first conflict or
load error stops the pass, since the callback's error cancels the lister. -/
def runAttemptGo (wantExclusive : Bool) (checked : List Nat) :
    List StoreObj → List Nat → List Nat × Option AttemptErr
  | [], acc => (acc, none)
  | o :: rest, acc =>
    match classifyLockObj wantExclusive checked o with
    | .skip => runAttemptGo wantExclusive checked rest acc
    | .keep _ => runAttemptGo wantExclusive checked rest (o.id :: acc)
    | .conflict other => (acc, some (.conflict other))
    | .failed e => (acc, some (.err e))

/-- One scan attempt (lock.go lines 177-201): with a cancelled context the
parallel lister returns the context error; otherwise the objects are scanned
starting from a clone of the checked set. -/
def runAttempt (wantExclusive : Bool) (ctxCanceled : Bool)
    (checked : List Nat) (objs : List StoreObj) :
    List Nat × Option AttemptErr :=
  if ctxCanceled then (checked, some (.err .ctxCanceled))
  else runAttemptGo wantExclusive checked objs checked

/-- Claim C2: a loaded lock object is classified as a conflict exactly when
the acquirer wants an exclusive lock (any other lock conflicts) or the other
lock is exclusive; objects whose id is in the checked set (which is seeded
with the acquirer's own id) and zero-size objects are always skipped, never
conflicts. -/
theorem classify_conflict_iff (wantExclusive : Bool) (checked : List Nat)
    (o : StoreObj) :
    (∀ other : LockData,
      classifyLockObj wantExclusive checked o = .conflict other ↔
        o.id ∉ checked ∧ o.size ≠ 0 ∧ o.load = .ok other ∧
          (wantExclusive = true ∨ other.Exclusive = true))
    ∧ (o.id ∈ checked ∨ o.size = 0 →
        classifyLockObj wantExclusive checked o = .skip) := by
  obtain ⟨oid, osize, oload⟩ := o
  constructor
  · intro other
    cases oload with
    | error e =>
      simp only [classifyLockObj]
      split_ifs <;> simp_all
    | ok lock =>
      simp only [classifyLockObj]
      split_ifs with h1 h2 h3 h4
      · simp [h1]
      · simp [h1, h2]
      · simp [h1, h2, h3]
      · simp [h1, h2, h3, h4]
        rintro rfl
        exact h4
      · simp [h1, h2, h3, h4]
        rintro rfl
        simpa using h4
  · intro h
    rcases h with h | h
    · simp [classifyLockObj, h]
    · simp only [classifyLockObj]
      split_ifs <;> simp_all

/-- Concrete instance of `classify_conflict_iff`: a non-exclusive acquirer
conflicts with a stored exclusive lock of another process. -/
theorem classify_conflict_iff_witness :
    classifyLockObj false [7]
      { id := 3, size := 10, load := .ok { Exclusive := true } } =
      .conflict { Exclusive := true } :=
  ((classify_conflict_iff false [7]
      { id := 3, size := 10, load := .ok { Exclusive := true } }).1
    { Exclusive := true }).mpr
    ⟨by decide, by decide, rfl, Or.inr rfl⟩

/-! ## Retry loop of checkForOtherLocks -/

/-- Final error of a checkForOtherLocks call. -/
inductive CheckErr where
  | alreadyLocked (other : LockData)
  | invalidLock
  | transport
  | cancelled
deriving DecidableEq

/-- Mapping of the last attempt error at the end of the retry loop
(lock.go lines 212-215): ErrInvalidData is wrapped into an invalidLockError,
any other error is returned as it is. -/
def finalizeErr : LoadErr → CheckErr
  | .invalidData => .invalidLock
  | .transport => .transport
  | .ctxCanceled => .cancelled

/-- Observable trace of one checkForOtherLocks call: the outcome (`none`
for success), the number of scan attempts performed, and the backoff delays
actually slept, in order. -/
structure ScanTrace where
  result : Option CheckErr
  attempts : Nat
  delays : List Nat
deriving DecidableEq

/-- Delays slept after loop iteration bookkeeping: no sleep before the first
attempt, otherwise the current delay is slept (lock.go lines 169-175). -/
def nextDelays (i delay : Nat) (delays : List Nat) : List Nat :=
  if i = 0 then delays else delays ++ [delay]

/-- The delay doubles after each sleep (lock.go line 174). -/
def nextDelay (i delay : Nat) : Nat :=
  if i = 0 then delay else 2 * delay

/-- Retry loop of checkForOtherLocks (lock.go lines 160-216).  `fuel` is the
number of loop iterations left (4 at the top call), `i` the iteration index,
`checked` the set of ids proven compatible so far, `delay` the next backoff
delay, `delays` the delays slept so far, and the last argument the error of
the most recent failed attempt.  `canc i` tells whether the context is
cancelled by iteration `i`: a cancelled context interrupts the backoff sleep
(cancelableDelay, lock.go lines 218-228) and otherwise makes the parallel
lister of the attempt fail with the context error.  A conflict ends the loop
at once; any other error is kept and retried. -/
def checkGo (wantExclusive : Bool) (stores : Nat → List StoreObj)
    (canc : Nat → Bool) :
    Nat → Nat → List Nat → Nat → List Nat → LoadErr → ScanTrace
  | 0, i, _, _, delays, lastErr => ⟨some (finalizeErr lastErr), i, delays⟩
  | fuel + 1, i, checked, delay, delays, _ =>
    if i ≠ 0 ∧ canc i then ⟨some .cancelled, i, delays⟩
    else
      match runAttempt wantExclusive (canc i) checked (stores i) with
      | (_, none) => ⟨none, i + 1, nextDelays i delay delays⟩
      | (_, some (.conflict other)) =>
          ⟨some (.alreadyLocked other), i + 1, nextDelays i delay delays⟩
      | (checked', some (.err e)) =>
          checkGo wantExclusive stores canc fuel (i + 1) checked'
            (nextDelay i delay) (nextDelays i delay delays) e

/-- Initial checked set: the acquirer's own lock id if it already has one
(lock.go lines 162-165). -/
def initChecked : Option Nat → List Nat
  | none => []
  | some id => [id]

/-- Model of checkForOtherLocks: 4 loop iterations, backoff starting at
`initialWaitBetweenLockRetries`.  The initial last-error value is never
reported: the first attempt always runs and overwrites it. -/
def checkForOtherLocksModel (wantExclusive : Bool)
    (stores : Nat → List StoreObj) (canc : Nat → Bool)
    (ownID : Option Nat) : ScanTrace :=
  checkGo wantExclusive stores canc 4 0 (initChecked ownID)
    initialWaitBetweenLockRetries [] .transport

/-- The doubling backoff schedule: `doublingDelays d k` is the list of the
first `k` delays starting at `d`. -/
def doublingDelays : Nat → Nat → List Nat
  | _, 0 => []
  | d, k + 1 => d :: doublingDelays (2 * d) k

theorem checkGo_zero (w : Bool) (s : Nat → List StoreObj) (c : Nat → Bool)
    (i : Nat) (checked : List Nat) (delay : Nat) (delays : List Nat)
    (lastErr : LoadErr) :
    checkGo w s c 0 i checked delay delays lastErr =
      ⟨some (finalizeErr lastErr), i, delays⟩ := rfl

theorem checkGo_succ (w : Bool) (s : Nat → List StoreObj) (c : Nat → Bool)
    (fuel i : Nat) (checked : List Nat) (delay : Nat) (delays : List Nat)
    (lastErr : LoadErr) :
    checkGo w s c (fuel + 1) i checked delay delays lastErr =
      if i ≠ 0 ∧ c i then ⟨some .cancelled, i, delays⟩
      else
        match runAttempt w (c i) checked (s i) with
        | (_, none) => ⟨none, i + 1, nextDelays i delay delays⟩
        | (_, some (.conflict other)) =>
            ⟨some (.alreadyLocked other), i + 1, nextDelays i delay delays⟩
        | (checked', some (.err e)) =>
            checkGo w s c fuel (i + 1) checked'
              (nextDelay i delay) (nextDelays i delay delays) e := rfl

/-- The delays slept by the loop, started at a non-first iteration, extend
the accumulator by a prefix of the doubling schedule. -/
theorem checkGo_delays_bounded (w : Bool) (s : Nat → List StoreObj)
    (c : Nat → Bool) :
    ∀ (fuel i : Nat) (checked : List Nat) (delay : Nat) (delays : List Nat)
      (lastErr : LoadErr), i ≠ 0 →
      (checkGo w s c fuel i checked delay delays lastErr).delays <+:
        delays ++ doublingDelays delay fuel := by
  intro fuel
  induction fuel with
  | zero =>
    intro i checked delay delays lastErr hi
    simp [checkGo_zero, doublingDelays]
  | succ fuel ih =>
    intro i checked delay delays lastErr hi
    have hsplit : delays ++ doublingDelays delay (fuel + 1) =
        (delays ++ [delay]) ++ doublingDelays (2 * delay) fuel := by
      rw [doublingDelays, List.append_assoc]
      rfl
    rw [checkGo_succ]
    by_cases hc : c i
    · rw [if_pos ⟨hi, hc⟩]
      exact List.prefix_append delays _
    · have hguard : ¬(i ≠ 0 ∧ c i) := fun h => hc h.2
      rw [if_neg hguard]
      rcases hr : runAttempt w (c i) checked (s i) with ⟨ch, r⟩
      cases r with
      | none =>
        show nextDelays i delay delays <+: _
        rw [hsplit, nextDelays, if_neg hi]
        exact List.prefix_append _ _
      | some a =>
        cases a with
        | conflict other =>
          show nextDelays i delay delays <+: _
          rw [hsplit, nextDelays, if_neg hi]
          exact List.prefix_append _ _
        | err e =>
          show (checkGo w s c fuel (i + 1) ch (nextDelay i delay)
              (nextDelays i delay delays) e).delays <+: _
          rw [hsplit, nextDelays, nextDelay, if_neg hi, if_neg hi]
          exact ih (i + 1) ch (2 * delay) (delays ++ [delay]) e (Nat.succ_ne_zero i)

/-- The number of scan attempts performed by the loop is bounded by the
remaining fuel. -/
theorem checkGo_attempts_le (w : Bool) (s : Nat → List StoreObj)
    (c : Nat → Bool) :
    ∀ (fuel i : Nat) (checked : List Nat) (delay : Nat) (delays : List Nat)
      (lastErr : LoadErr),
      (checkGo w s c fuel i checked delay delays lastErr).attempts ≤ i + fuel := by
  intro fuel
  induction fuel with
  | zero =>
    intro i checked delay delays lastErr
    simp [checkGo_zero]
  | succ fuel ih =>
    intro i checked delay delays lastErr
    rw [checkGo_succ]
    by_cases hguard : i ≠ 0 ∧ c i
    · rw [if_pos hguard]
      exact Nat.le_add_right i (fuel + 1)
    · rw [if_neg hguard]
      rcases hr : runAttempt w (c i) checked (s i) with ⟨ch, r⟩
      match r with
      | none => exact Nat.add_le_add_left (Nat.le_add_left 1 fuel) i
      | some (.conflict other) =>
        exact Nat.add_le_add_left (Nat.le_add_left 1 fuel) i
      | some (.err e) =>
        have := ih (i + 1) ch (nextDelay i delay) (nextDelays i delay delays) e
        calc (checkGo w s c fuel (i + 1) ch (nextDelay i delay)
                (nextDelays i delay delays) e).attempts
            ≤ (i + 1) + fuel := this
          _ = i + (fuel + 1) := by omega

/-- One loop iteration whose scan attempt fails with a non-conflict error
continues with the next iteration. -/
theorem checkGo_step_err (w : Bool) (s : Nat → List StoreObj) (c : Nat → Bool)
    (fuel i : Nat) (checked checked' : List Nat) (delay : Nat)
    (delays : List Nat) (lastErr e : LoadErr)
    (hguard : ¬(i ≠ 0 ∧ c i))
    (hr : runAttempt w (c i) checked (s i) = (checked', some (.err e))) :
    checkGo w s c (fuel + 1) i checked delay delays lastErr =
      checkGo w s c fuel (i + 1) checked' (nextDelay i delay)
        (nextDelays i delay delays) e := by
  rw [checkGo_succ, if_neg hguard, hr]

/-- When the context stays live and every attempt fails with the same
non-conflict error without growing the checked set, the loop performs all 4
attempts, sleeping the full doubling backoff schedule, and reports the
finalized error. -/
theorem checkModel_all_attempts_err (w : Bool) (s : Nat → List StoreObj)
    (c : Nat → Bool) (ownID : Option Nat) (e : LoadErr)
    (hcanc : ∀ i, c i = false)
    (hall : ∀ i, runAttempt w (c i) (initChecked ownID) (s i) =
      (initChecked ownID, some (.err e))) :
    checkForOtherLocksModel w s c ownID =
      ⟨some (finalizeErr e), 4, [5000, 10000, 20000]⟩ := by
  have hguard : ∀ i, ¬(i ≠ 0 ∧ c i) := by
    intro i h
    rw [hcanc i] at h
    exact absurd h.2 (by simp)
  unfold checkForOtherLocksModel
  rw [show (4 : Nat) = 3 + 1 from rfl,
    checkGo_step_err w s c 3 0 _ _ _ _ _ e (hguard 0) (hall 0),
    checkGo_step_err w s c 2 (0 + 1) _ _ _ _ _ e (hguard _) (hall _),
    checkGo_step_err w s c 1 (0 + 1 + 1) _ _ _ _ _ e (hguard _) (hall _),
    checkGo_step_err w s c 0 (0 + 1 + 1 + 1) _ _ _ _ _ e (hguard _) (hall _),
    checkGo_zero]
  simp [nextDelays, nextDelay, initialWaitBetweenLockRetries]

/-- The delays slept by a checkForOtherLocks call form a prefix of the
doubling schedule 5 s, 10 s, 20 s. -/
theorem checkModel_delays_bounded (w : Bool) (s : Nat → List StoreObj)
    (c : Nat → Bool) (ownID : Option Nat) :
    (checkForOtherLocksModel w s c ownID).delays <+: [5000, 10000, 20000] := by
  unfold checkForOtherLocksModel
  rw [show (4 : Nat) = 3 + 1 from rfl, checkGo_succ, if_neg (by simp)]
  rcases hr : runAttempt w (c 0) (initChecked ownID) (s 0) with ⟨ch, r⟩
  cases r with
  | none =>
    show nextDelays 0 initialWaitBetweenLockRetries [] <+: _
    simp [nextDelays]
  | some a =>
    cases a with
    | conflict other =>
      show nextDelays 0 initialWaitBetweenLockRetries [] <+: _
      simp [nextDelays]
    | err e =>
      show (checkGo w s c 3 (0 + 1) ch
          (nextDelay 0 initialWaitBetweenLockRetries)
          (nextDelays 0 initialWaitBetweenLockRetries []) e).delays <+: _
      have h := checkGo_delays_bounded w s c 3 (0 + 1) ch
        (nextDelay 0 initialWaitBetweenLockRetries)
        (nextDelays 0 initialWaitBetweenLockRetries []) e (by simp)
      have hd : nextDelays 0 initialWaitBetweenLockRetries [] ++
          doublingDelays (nextDelay 0 initialWaitBetweenLockRetries) 3 =
          [5000, 10000, 20000] := rfl
      rwa [hd] at h

/-- When the first attempt fails with a non-conflict error and the context
is cancelled by the first retry iteration, the backoff sleep is interrupted:
the loop ends with the cancellation error after a single attempt and with no
delay slept. -/
theorem checkModel_cancel_at_first_retry (w : Bool)
    (s : Nat → List StoreObj) (c : Nat → Bool) (ownID : Option Nat)
    (ch' : List Nat) (e : LoadErr) (hc1 : c 1 = true)
    (hr : runAttempt w (c 0) (initChecked ownID) (s 0) =
      (ch', some (.err e))) :
    checkForOtherLocksModel w s c ownID = ⟨some .cancelled, 1, []⟩ := by
  unfold checkForOtherLocksModel
  rw [show (4 : Nat) = 3 + 1 from rfl,
    checkGo_step_err w s c 3 0 _ _ _ _ _ e (by simp) hr,
    show (3 : Nat) = 2 + 1 from rfl, checkGo_succ,
    if_pos ⟨by simp, show c (0 + 1) = true from hc1⟩]
  simp [nextDelays]

/-- Claim C4: the conflict scan makes at most 4 attempts; the delays slept
are an initial segment of the schedule 5 s, 10 s, 20 s (doubling after each
retry); the backoff sleep is interrupted when the context is cancelled; a
conflict found on the first attempt ends the call at once with no further
attempt or sleep; and if every attempt fails with a transport error while
the context stays live, the whole budget of 4 attempts and all three delays
are consumed before the transport error is surfaced. -/
theorem check_retry_policy (w : Bool) (s : Nat → List StoreObj)
    (c : Nat → Bool) (ownID : Option Nat) :
    (checkForOtherLocksModel w s c ownID).attempts ≤ 4
    ∧ (checkForOtherLocksModel w s c ownID).delays <+:
        [initialWaitBetweenLockRetries, 2 * initialWaitBetweenLockRetries,
          4 * initialWaitBetweenLockRetries]
    ∧ (∀ (other : LockData) (ch : List Nat),
        runAttempt w (c 0) (initChecked ownID) (s 0) =
            (ch, some (.conflict other)) →
        checkForOtherLocksModel w s c ownID =
          ⟨some (.alreadyLocked other), 1, []⟩)
    ∧ ((∀ i, c i = false) →
        (∀ i, runAttempt w (c i) (initChecked ownID) (s i) =
          (initChecked ownID, some (.err .transport))) →
        checkForOtherLocksModel w s c ownID =
          ⟨some .transport, 4, [initialWaitBetweenLockRetries,
            2 * initialWaitBetweenLockRetries,
            4 * initialWaitBetweenLockRetries]⟩)
    ∧ (c 1 = true → ∀ (ch' : List Nat) (e : LoadErr),
        runAttempt w (c 0) (initChecked ownID) (s 0) =
            (ch', some (.err e)) →
        checkForOtherLocksModel w s c ownID = ⟨some .cancelled, 1, []⟩) := by
  have hsched : [initialWaitBetweenLockRetries,
      2 * initialWaitBetweenLockRetries,
      4 * initialWaitBetweenLockRetries] = [5000, 10000, 20000] := rfl
  refine ⟨?_, ?_, ?_, ?_, ?_⟩
  · have h := checkGo_attempts_le w s c 4 0 (initChecked ownID)
      initialWaitBetweenLockRetries [] .transport
    simpa [checkForOtherLocksModel] using h
  · rw [hsched]
    exact checkModel_delays_bounded w s c ownID
  · intro other ch hr
    unfold checkForOtherLocksModel
    rw [show (4 : Nat) = 3 + 1 from rfl, checkGo_succ, if_neg (by simp), hr]
    simp [nextDelays]
  · intro hcanc hall
    rw [hsched]
    exact checkModel_all_attempts_err w s c ownID .transport hcanc hall
  · intro hc1 ch' e hr
    exact checkModel_cancel_at_first_retry w s c ownID ch' e hc1 hr

/-- An exclusive lock descriptor held by some other process. -/
def exLock : LockData := { Exclusive := true, PID := 42 }

/-- A stored lock object holding `exLock`. -/
def exObj : StoreObj := { id := 2, size := 10, load := .ok exLock }

/-- A malformed (unparseable) stored lock object. -/
def badObj : StoreObj := { id := 1, size := 10, load := .error .invalidData }

/-- A store whose enumeration yields the malformed object before the
conflicting exclusive lock. -/
def c3Store : List StoreObj := [badObj, exObj]

/-- Concrete instance of `check_retry_policy`: a conflict on the first
attempt is returned at once, after a single attempt and no sleep. -/
theorem check_retry_policy_witness :
    checkForOtherLocksModel true (fun _ => [exObj]) (fun _ => false) none =
      ⟨some (.alreadyLocked exLock), 1, []⟩ :=
  (check_retry_policy true (fun _ => [exObj]) (fun _ => false) none).2.2.1
    exLock [] rfl

/-- Claim C3 is false on the code: with a store enumerating a malformed lock
object before an exclusive lock object, the scan of an exclusive acquirer
reports the invalid-lock error after exhausting its attempts, although a
conflicting object sits in the store right behind the malformed one; the
attempt stops at the malformed object instead of scanning the rest, so the
conflict is never classified and the claimed "conflict wins over invalid"
outcome does not happen. -/
theorem invalid_lock_stops_scan_counterexample :
    (checkForOtherLocksModel true (fun _ => c3Store)
        (fun _ => false) none).result = some .invalidLock
    ∧ classifyLockObj true [] exObj = .conflict exLock
    ∧ runAttemptGo true [] c3Store [] = ([], some (.err .invalidData)) := by
  refine ⟨?_, ?_, ?_⟩ <;> rfl

/-- Claim C3 (amended): a lock object that fails to load as malformed data
stops the scan attempt with that error (the remaining objects of the attempt
are not scanned, since the callback error cancels the lister); the outer
loop retries the whole attempt, and when every attempt fails on malformed
data while the context stays live, the loop exhausts its 4 attempts and then
reports the invalid-lock error. -/
theorem invalid_lock_retry_behavior (w : Bool) (checked acc : List Nat)
    (o : StoreObj) (rest : List StoreObj) (e : LoadErr)
    (s : Nat → List StoreObj) (c : Nat → Bool) (ownID : Option Nat)
    (ho : classifyLockObj w checked o = .failed e)
    (hcanc : ∀ i, c i = false)
    (hall : ∀ i, runAttempt w (c i) (initChecked ownID) (s i) =
      (initChecked ownID, some (.err .invalidData))) :
    runAttemptGo w checked (o :: rest) acc = (acc, some (.err e))
    ∧ checkForOtherLocksModel w s c ownID =
        ⟨some .invalidLock, 4, [5000, 10000, 20000]⟩ := by
  constructor
  · rw [runAttemptGo, ho]
  · exact checkModel_all_attempts_err w s c ownID .invalidData hcanc hall

/-- Concrete instance of `invalid_lock_retry_behavior` on a store holding a
single malformed lock object. -/
theorem invalid_lock_retry_behavior_witness :
    runAttemptGo true [] (badObj :: [exObj]) [] =
      ([], some (.err .invalidData))
    ∧ checkForOtherLocksModel true (fun _ => [badObj]) (fun _ => false) none =
        ⟨some .invalidLock, 4, [5000, 10000, 20000]⟩ :=
  invalid_lock_retry_behavior true [] [] badObj [exObj] .invalidData
    (fun _ => [badObj]) (fun _ => false) none rfl (fun _ => rfl) (fun _ => rfl)

/-! ## Acquisition (NewLock, fillUserInfo) -/

/-- Result of user.Current: the username of the current user. -/
structure UserRec where
  Username : String
deriving DecidableEq

/-- Model of fillUserInfo (lock.go lines 143-152).  `userRes` is the result
of user.Current (none on failure), `uidGidRes` the result of the platform
helper uidGidInt on that user (not part of the sources; per the spec it
parses the numeric uid and gid).  A failed user lookup returns nil with the
descriptor unchanged; a failed uid/gid parse is returned as an error. -/
def fillUserInfo (l : LockData) (userRes : Option UserRec)
    (uidGidRes : Except Unit (Nat × Nat)) : Except Unit LockData :=
  match userRes with
  | none => .ok l
  | some usr =>
    match uidGidRes with
    | .error e => .error e
    | .ok (uid, gid) =>
      .ok { l with Username := usr.Username, UID := uid, GID := gid }

/-- Error outcomes of NewLock. -/
inductive NewLockErr where
  | userInfo
  | check (e : CheckErr)
  | saveFailed
deriving DecidableEq

/-- Environment of one NewLock call: the outcomes of the platform probes,
the stores observed by the scan attempts of the pre-check and of the
post-check, the per-iteration context cancellation schedules, and the
store-assigned id of the saved descriptor.  Modelled from the spec: the
store assigns a fresh opaque id on save (§4.4). -/
structure NewLockEnv where
  now : Int
  pid : Nat
  exclusive : Bool
  hostnameRes : Option String
  userRes : Option UserRec
  uidGidRes : Except Unit (Nat × Nat)
  preStores : Nat → List StoreObj
  preCanc : Nat → Bool
  saveOk : Bool
  newID : Nat
  postStores : Nat → List StoreObj
  postCanc : Nat → Bool

/-- Observable outcome of one NewLock call: the result (the descriptor and
its lock id on success), the duration actually slept at the settle point
between publishing and the post-check (0 when never reached), and whether
the freshly created lock was removed again on post-check failure. -/
structure NewLockOut where
  result : Except NewLockErr (LockData × Nat)
  settleSlept : Nat
  unlocked : Bool
deriving DecidableEq

/-- The descriptor NewLock builds before the user lookup: timestamp, pid,
exclusivity, and the hostname on a best-effort basis — blank when
os.Hostname fails (lock.go lines 106-116). -/
def newLockBase (env : NewLockEnv) : LockData :=
  match env.hostnameRes with
  | some hn =>
    { Time := env.now, PID := env.pid, Exclusive := env.exclusive,
      Hostname := hn }
  | none => { Time := env.now, PID := env.pid, Exclusive := env.exclusive }

/-- Model of NewLock (lock.go lines 105-141): build the descriptor with
best-effort hostname, fill in the user info (aborting on a uid/gid parse
error), run the pre-check scan, save the descriptor, sleep the settle delay
— `time.Sleep(waitBeforeLockCheck)` at line 133, unconditional, performed in
full no matter the state of the context — then run the post-check scan with
the own id excluded, unlocking and failing if it finds a conflict or
errors. -/
def NewLockModel (env : NewLockEnv) : NewLockOut :=
  match fillUserInfo (newLockBase env) env.userRes env.uidGidRes with
  | .error _ => ⟨.error .userInfo, 0, false⟩
  | .ok l2 =>
    match (checkForOtherLocksModel l2.Exclusive env.preStores
        env.preCanc none).result with
    | some e => ⟨.error (.check e), 0, false⟩
    | none =>
      if env.saveOk = false then ⟨.error .saveFailed, 0, false⟩
      else
        match (checkForOtherLocksModel l2.Exclusive env.postStores
            env.postCanc (some env.newID)).result with
        | some e => ⟨.error (.check e), waitBeforeLockCheck, true⟩
        | none => ⟨.ok (l2, env.newID), waitBeforeLockCheck, false⟩

/-- An environment in which the context is cancelled before the settle
delay: empty store, all platform probes fail benignly, save succeeds, and
the context is cancelled from the moment the descriptor is published. -/
def settleCancelEnv : NewLockEnv :=
  { now := 0, pid := 7, exclusive := true, hostnameRes := none,
    userRes := none, uidGidRes := .ok (0, 0),
    preStores := fun _ => [], preCanc := fun _ => false,
    saveOk := true, newID := 5,
    postStores := fun _ => [], postCanc := fun _ => true }

/-- Claim C5 is false on the code: with the context cancelled during the
settle window between publishing the descriptor and the post-check, NewLock
still sleeps the full 200 ms settle interval (`time.Sleep` at lock.go line
133 does not take the context); the cancellation error surfaces only
afterwards, from the post-check scan. -/
theorem settle_sleep_full_interval_counterexample :
    (NewLockModel settleCancelEnv).settleSlept = waitBeforeLockCheck
    ∧ waitBeforeLockCheck = 200
    ∧ NewLockModel settleCancelEnv =
        ⟨.error (.check .cancelled), 200, true⟩ := by
  refine ⟨?_, ?_, ?_⟩ <;> rfl

/-- An environment in which user.Current succeeds but the numeric uid/gid
lookup fails; everything else is benign. -/
def uidGidFailEnv : NewLockEnv :=
  { now := 0, pid := 7, exclusive := false, hostnameRes := some "host",
    userRes := some { Username := "alice" }, uidGidRes := .error (),
    preStores := fun _ => [], preCanc := fun _ => false,
    saveOk := true, newID := 5,
    postStores := fun _ => [], postCanc := fun _ => false }

/-- Claim C6 is false on the code: when the user is determined but the
numeric uid/gid lookup fails, fillUserInfo returns that error and NewLock
returns it to the caller (lock.go lines 118-120 and 150-151) instead of
leaving the fields blank. -/
theorem uid_gid_failure_errors_counterexample :
    NewLockModel uidGidFailEnv = ⟨.error .userInfo, 0, false⟩
    ∧ fillUserInfo ({ } : LockData) (some { Username := "alice" })
        (.error ()) = .error () :=
  ⟨rfl, rfl⟩

/-- Claim C6 (amended): the user lookup is only partially best-effort.  When
user.Current fails, the username, uid and gid are left blank and acquisition
continues without error; when the user is determined and the uid/gid parse
succeeds, the fields are filled in; but when the uid/gid parse fails, the
error is propagated and NewLock aborts with it. -/
theorem fillUserInfo_best_effort (l : LockData) (u : UserRec)
    (r : Except Unit (Nat × Nat)) (uid gid : Nat) (env : NewLockEnv)
    (hu : env.userRes = some u) (hr : env.uidGidRes = .error ()) :
    fillUserInfo l none r = .ok l
    ∧ fillUserInfo l (some u) (.error ()) = .error ()
    ∧ fillUserInfo l (some u) (.ok (uid, gid)) =
        .ok { l with Username := u.Username, UID := uid, GID := gid }
    ∧ NewLockModel env = ⟨.error .userInfo, 0, false⟩ := by
  refine ⟨rfl, rfl, rfl, ?_⟩
  unfold NewLockModel
  rw [hu, hr]
  rfl

/-- Concrete instance of `fillUserInfo_best_effort`. -/
theorem fillUserInfo_best_effort_witness :
    fillUserInfo ({ } : LockData) none (.ok (1, 2)) = .ok { }
    ∧ fillUserInfo ({ } : LockData) (some { Username := "alice" })
        (.error ()) = .error ()
    ∧ fillUserInfo ({ } : LockData) (some { Username := "alice" })
        (.ok (10, 20)) =
        .ok { Username := "alice", UID := 10, GID := 20 }
    ∧ NewLockModel uidGidFailEnv = ⟨.error .userInfo, 0, false⟩ :=
  fillUserInfo_best_effort { } { Username := "alice" } (.ok (1, 2)) 10 20
    uidGidFailEnv rfl rfl

/-! ## Release (Unlock) -/

/-- In-memory lock handle: the store-assigned id, present only once the
descriptor was published (lock.go line 42). -/
structure LockHandle where
  lockID : Option Nat
deriving DecidableEq

/-- Model of Unlock (lock.go lines 241-250): a nil lock or a lock without an
id is a no-op returning nil; otherwise the lock object is removed from the
store.  Removal is modelled from the spec (§4.4): deletion is idempotent and
absence of the id is not an error, so the call always succeeds. -/
def UnlockModel (l : Option LockHandle) (store : Finset Nat) :
    Except Unit Unit × Finset Nat :=
  match l with
  | none => (.ok (), store)
  | some lk =>
    match lk.lockID with
    | none => (.ok (), store)
    | some id => (.ok (), store.erase id)

/-- Claim C9: release is idempotent — releasing a nil lock or a
never-published lock returns ok and leaves the store unchanged, and a second
release of the same lock has no further effect on the store and still
returns ok. -/
theorem unlock_idempotent (store : Finset Nat) (lk : LockHandle) :
    UnlockModel none store = (.ok (), store)
    ∧ (lk.lockID = none → UnlockModel (some lk) store = (.ok (), store))
    ∧ UnlockModel (some lk) (UnlockModel (some lk) store).2 =
        UnlockModel (some lk) store := by
  refine ⟨rfl, ?_, ?_⟩
  · intro h
    simp [UnlockModel, h]
  · cases h : lk.lockID with
    | none => simp [UnlockModel, h]
    | some id => simp [UnlockModel, h, Finset.erase_idem]

/-- Concrete instance of `unlock_idempotent`. -/
theorem unlock_idempotent_witness :
    UnlockModel none ({3} : Finset Nat) = (.ok (), {3})
    ∧ UnlockModel (some ⟨none⟩) ({3} : Finset Nat) = (.ok (), {3})
    ∧ UnlockModel (some ⟨some 3⟩)
        (UnlockModel (some ⟨some 3⟩) ({3} : Finset Nat)).2 =
        UnlockModel (some ⟨some 3⟩) ({3} : Finset Nat) :=
  ⟨(unlock_idempotent {3} ⟨some 3⟩).1,
    (unlock_idempotent {3} ⟨none⟩).2.1 rfl,
    (unlock_idempotent {3} ⟨some 3⟩).2.2⟩

/-! ## Refresh and RefreshStaleLock -/

inductive RefreshErr where
  | saveFailed
  | removeFailed
deriving DecidableEq

/-- Observable outcome of one Refresh call: the result, the in-memory lock
id and timestamp after the call, and the store contents. -/
structure RefreshOut where
  result : Except RefreshErr Unit
  lockID : Nat
  time : Int
  store : Finset Nat
deriving DecidableEq

/-- Model of Refresh (lock.go lines 309-330): stamp a new timestamp (line
312, before saving), save a new descriptor — the store assigns `newID` —
swap the in-memory lock id to the new id (line 324), then remove the old
lock object.  `saveOk` and `removeOk` are the outcomes of the two store
operations; a failed removal leaves the old object in the store.  The store
itself is modelled from the spec (§4.4). -/
def RefreshModel (oldID : Nat) (time0 : Int) (store0 : Finset Nat)
    (newTime : Int) (newID : Nat) (saveOk removeOk : Bool) : RefreshOut :=
  let time1 := newTime
  if saveOk = false then ⟨.error .saveFailed, oldID, time1, store0⟩
  else
    let store1 := insert newID store0
    if removeOk = false then ⟨.error .removeFailed, newID, time1, store1⟩
    else ⟨.ok (), newID, time1, store1.erase oldID⟩

/-- Claim C10: once saving the replacement descriptor succeeds, the
in-memory state is already updated — lock id swapped to the new id, time to
the new timestamp — so when the removal of the old object then fails,
Refresh returns that error while the in-memory lock id points at the new
descriptor and both the old and the new descriptor are still in the
store. -/
theorem refresh_state_update_before_removal (oldID newID : Nat)
    (time0 newTime : Int) (store0 : Finset Nat) (hmem : oldID ∈ store0) :
    (RefreshModel oldID time0 store0 newTime newID true false).result =
        .error .removeFailed
    ∧ (RefreshModel oldID time0 store0 newTime newID true false).lockID =
        newID
    ∧ (RefreshModel oldID time0 store0 newTime newID true false).time =
        newTime
    ∧ oldID ∈ (RefreshModel oldID time0 store0 newTime newID true false).store
    ∧ newID ∈
        (RefreshModel oldID time0 store0 newTime newID true false).store := by
  refine ⟨rfl, rfl, rfl, ?_, ?_⟩
  · exact Finset.mem_insert_of_mem hmem
  · exact Finset.mem_insert_self newID store0

/-- Concrete instance of `refresh_state_update_before_removal`. -/
theorem refresh_state_update_before_removal_witness :
    (RefreshModel 1 0 {1} 99 2 true false).result = .error .removeFailed
    ∧ (RefreshModel 1 0 {1} 99 2 true false).lockID = 2
    ∧ (RefreshModel 1 0 {1} 99 2 true false).time = 99
    ∧ 1 ∈ (RefreshModel 1 0 {1} 99 2 true false).store
    ∧ 2 ∈ (RefreshModel 1 0 {1} 99 2 true false).store :=
  refresh_state_update_before_removal 1 2 0 99 {1} (by decide)

inductive RSErr where
  | removedLock
deriving DecidableEq

/-- Observable outcome of one RefreshStaleLock call: the result, the store
contents, the in-memory lock id and timestamp after the call, and the
duration actually slept at the settle point (0 when never reached). -/
structure RSOut where
  result : Except RSErr Unit
  store : Finset Nat
  lockID : Nat
  time : Int
  settleSlept : Nat
deriving DecidableEq

/-- Model of RefreshStaleLock (lock.go lines 333-380): check that the old
lock object still exists (checkExistence, lines 382-396, lists the lock ids
and looks for the own id), returning ErrRemovedLock if not; stamp a new
timestamp and save a replacement descriptor — the store assigns `newID` —
sleep the settle delay (`time.Sleep(waitBeforeLockCheck)` at line 353,
unconditional), then check existence of the old id again.  If the old id
vanished, remove the replacement descriptor and return ErrRemovedLock with
the in-memory lock id unchanged; otherwise swap the in-memory id to the new
one and remove the old object.  `interfere` is the mutation peers perform on
the store during the settle window; the store is modelled from the
spec (§4.4). -/
def RefreshStaleModel (oldID : Nat) (time0 : Int) (store0 : Finset Nat)
    (newTime : Int) (newID : Nat) (interfere : Finset Nat → Finset Nat) :
    RSOut :=
  if oldID ∉ store0 then ⟨.error .removedLock, store0, oldID, time0, 0⟩
  else
    let store1 := insert newID store0
    let slept := waitBeforeLockCheck
    let store2 := interfere store1
    if oldID ∈ store2 then
      ⟨.ok (), store2.erase oldID, newID, newTime, slept⟩
    else
      ⟨.error .removedLock, store2.erase newID, oldID, newTime, slept⟩

/-- Claim C8: when the original lock object is removed from the store
between the publish of the replacement descriptor and the second existence
check, RefreshStaleLock returns ErrRemovedLock, the store afterwards
contains neither the old id nor the replacement id, and the in-memory lock
id still holds the old id. -/
theorem refresh_stale_guard (oldID newID : Nat) (time0 newTime : Int)
    (store0 : Finset Nat) (interfere : Finset Nat → Finset Nat)
    (hmem : oldID ∈ store0)
    (hgone : oldID ∉ interfere (insert newID store0)) :
    (RefreshStaleModel oldID time0 store0 newTime newID interfere).result =
        .error .removedLock
    ∧ oldID ∉
        (RefreshStaleModel oldID time0 store0 newTime newID interfere).store
    ∧ newID ∉
        (RefreshStaleModel oldID time0 store0 newTime newID interfere).store
    ∧ (RefreshStaleModel oldID time0 store0 newTime newID interfere).lockID =
        oldID := by
  unfold RefreshStaleModel
  rw [if_neg (by simp [hmem])]
  dsimp only
  rw [if_neg hgone]
  refine ⟨rfl, ?_, ?_, rfl⟩
  · intro h
    exact hgone (Finset.mem_of_mem_erase h)
  · exact Finset.not_mem_erase newID _

/-- Concrete instance of `refresh_stale_guard`: the old lock 1 is deleted by
a peer while the replacement 2 is being created. -/
theorem refresh_stale_guard_witness :
    (RefreshStaleModel 1 0 {1} 99 2 (fun s => s.erase 1)).result =
        .error .removedLock
    ∧ 1 ∉ (RefreshStaleModel 1 0 {1} 99 2 (fun s => s.erase 1)).store
    ∧ 2 ∉ (RefreshStaleModel 1 0 {1} 99 2 (fun s => s.erase 1)).store
    ∧ (RefreshStaleModel 1 0 {1} 99 2 (fun s => s.erase 1)).lockID = 1 :=
  refresh_stale_guard 1 2 0 99 {1} (fun s => s.erase 1) (by decide) (by decide)

/-- Claim C5 (amended): the backoff sleeps of the conflict scan are
cancellable — a context cancelled at a retry iteration interrupts the sleep
and the cancellation error is returned with no delay slept — but the settle
delay between publishing a descriptor and the subsequent check is a plain
`time.Sleep` in both NewLock (line 133) and RefreshStaleLock (line 353):
whenever the settle point is reached, the full interval is slept regardless
of the cancellation schedule, and a cancellation error can only be
propagated by the operations that follow the sleep. -/
theorem settle_sleep_uncancellable (env : NewLockEnv) (l : LockData)
    (w : Bool) (s : Nat → List StoreObj) (c : Nat → Bool) (ownID : Option Nat)
    (ch' : List Nat) (e : LoadErr) (oldID newID : Nat) (time0 newTime : Int)
    (store0 : Finset Nat) (interfere : Finset Nat → Finset Nat)
    (hfill : fillUserInfo (newLockBase env) env.userRes env.uidGidRes = .ok l)
    (hpre : (checkForOtherLocksModel l.Exclusive env.preStores
      env.preCanc none).result = none)
    (hsave : env.saveOk = true)
    (hmem : oldID ∈ store0)
    (hc1 : c 1 = true)
    (hr : runAttempt w (c 0) (initChecked ownID) (s 0) =
      (ch', some (.err e))) :
    (NewLockModel env).settleSlept = waitBeforeLockCheck
    ∧ (RefreshStaleModel oldID time0 store0 newTime newID
        interfere).settleSlept = waitBeforeLockCheck
    ∧ checkForOtherLocksModel w s c ownID = ⟨some .cancelled, 1, []⟩ := by
  refine ⟨?_, ?_, checkModel_cancel_at_first_retry w s c ownID ch' e hc1 hr⟩
  · unfold NewLockModel
    rw [hfill]
    dsimp only
    rw [hpre]
    dsimp only
    rw [hsave]
    rw [if_neg (by simp)]
    split <;> rfl
  · unfold RefreshStaleModel
    rw [if_neg (by simp [hmem])]
    dsimp only
    split <;> rfl

/-- Concrete instance of `settle_sleep_uncancellable`. -/
theorem settle_sleep_uncancellable_witness :
    (NewLockModel settleCancelEnv).settleSlept = waitBeforeLockCheck
    ∧ (RefreshStaleModel 1 0 {1} 99 2 (fun s => s)).settleSlept =
        waitBeforeLockCheck
    ∧ checkForOtherLocksModel true (fun _ => [badObj])
        (fun i => decide (1 ≤ i)) none = ⟨some .cancelled, 1, []⟩ :=
  settle_sleep_uncancellable settleCancelEnv (newLockBase settleCancelEnv)
    true (fun _ => [badObj]) (fun i => decide (1 ≤ i)) none [] .invalidData
    1 2 0 99 {1} (fun s => s) rfl rfl rfl (by decide) rfl rfl

/-! ## Two-phase acquisition protocol: mutual exclusion of success -/

/-- Phase of one exclusive acquirer in the two-phase protocol of NewLock:
pre-check (lock.go line 122), publish via createLock (line 126), post-check
(line 135) with Unlock on failure (line 136). -/
inductive AcqPhase where
  | idle
  | prechecked
  | published
  | succeeded
  | failed
deriving DecidableEq

/-- Global state of `N` concurrent exclusive acquirers against one shared
store of lock descriptors.  Modelled from the spec: the store is the set of
published descriptors (§4.4); a read during the post-check sees every
previously completed publish — the settle delay (§4.6 step 4, §5) is
assumed to cover the backend's visibility bound, which collapses the
visibility delay to zero for the post-check — while pre-check reads may be
arbitrarily stale, so the pre-check is allowed to pass or fail
nondeterministically.  Within the window modelled, no holder releases and no
lock becomes stale. -/
structure AcqState (N : Nat) where
  phase : Fin N → AcqPhase
  store : Finset (Fin N)

/-- Update one acquirer's phase, leaving the store as it is. -/
def withPhase {N : Nat} (st : AcqState N) (n : Fin N) (p : AcqPhase) :
    AcqState N :=
  { st with phase := Function.update st.phase n p }

theorem withPhase_phase {N : Nat} (st : AcqState N) (n : Fin N)
    (p : AcqPhase) (k : Fin N) :
    (withPhase st n p).phase k = if k = n then p else st.phase k := by
  by_cases h : k = n
  · subst h
    simp [withPhase]
  · simp [withPhase, Function.update_noteq h, if_neg h]

/-- Interleaved small-step semantics of N concurrent NewLock(exclusive)
calls.  The post-check conflict condition is that of checkForOtherLocks for
an exclusive acquirer: any lock whose id is not the own excluded id
conflicts (lock.go lines 188-190); on a conflict the acquirer removes its
own descriptor and fails (lock.go lines 135-138).  No release or stale
eviction happens within the window. -/
inductive AcqStep (N : Nat) : AcqState N → AcqState N → Prop where
  | precheckPass (n : Fin N) (st : AcqState N) (h : st.phase n = .idle) :
      AcqStep N st (withPhase st n .prechecked)
  | precheckFail (n : Fin N) (st : AcqState N) (h : st.phase n = .idle) :
      AcqStep N st (withPhase st n .failed)
  | publish (n : Fin N) (st : AcqState N) (h : st.phase n = .prechecked) :
      AcqStep N st { withPhase st n .published with store := insert n st.store }
  | postcheckPass (n : Fin N) (st : AcqState N)
      (h : st.phase n = .published) (hok : ∀ m ∈ st.store, m = n) :
      AcqStep N st (withPhase st n .succeeded)
  | postcheckFail (n : Fin N) (st : AcqState N)
      (h : st.phase n = .published) (m : Fin N) (hm : m ∈ st.store)
      (hne : m ≠ n) :
      AcqStep N st { withPhase st n .failed with store := st.store.erase n }

/-- Initial state: all acquirers idle, empty store. -/
def acqInit (N : Nat) : AcqState N := ⟨fun _ => .idle, ∅⟩

/-- Reachability along the interleaving semantics. -/
def AcqReachable (N : Nat) (st : AcqState N) : Prop :=
  Relation.ReflTransGen (AcqStep N) (acqInit N) st

/-- The inductive invariant: every published-or-succeeded acquirer's
descriptor is in the store, and at most one acquirer has succeeded. -/
def AcqInv {N : Nat} (st : AcqState N) : Prop :=
  (∀ n : Fin N, st.phase n = .published ∨ st.phase n = .succeeded →
    n ∈ st.store)
  ∧ ∀ n m : Fin N,
      st.phase n = .succeeded → st.phase m = .succeeded → n = m

theorem acqInv_init (N : Nat) : AcqInv (acqInit N) := by
  constructor
  · intro n h
    rcases h with h | h <;> exact absurd h (by simp [acqInit])
  · intro n m hn hm
    exact absurd hn (by simp [acqInit])

theorem acqInv_step {N : Nat} {s t : AcqState N} (hstep : AcqStep N s t)
    (hinv : AcqInv s) : AcqInv t := by
  obtain ⟨h1, h2⟩ := hinv
  cases hstep with
  | precheckPass n _ h =>
    refine ⟨?_, ?_⟩
    · intro k hk
      simp only [withPhase_phase] at hk
      show k ∈ s.store
      by_cases hkn : k = n
      · simp [hkn] at hk
      · simp only [if_neg hkn] at hk
        exact h1 k hk
    · intro a b ha hb
      simp only [withPhase_phase] at ha hb
      by_cases han : a = n
      · simp [han] at ha
      · simp only [if_neg han] at ha
        by_cases hbn : b = n
        · simp [hbn] at hb
        · simp only [if_neg hbn] at hb
          exact h2 a b ha hb
  | precheckFail n _ h =>
    refine ⟨?_, ?_⟩
    · intro k hk
      simp only [withPhase_phase] at hk
      show k ∈ s.store
      by_cases hkn : k = n
      · simp [hkn] at hk
      · simp only [if_neg hkn] at hk
        exact h1 k hk
    · intro a b ha hb
      simp only [withPhase_phase] at ha hb
      by_cases han : a = n
      · simp [han] at ha
      · simp only [if_neg han] at ha
        by_cases hbn : b = n
        · simp [hbn] at hb
        · simp only [if_neg hbn] at hb
          exact h2 a b ha hb
  | publish n _ h =>
    refine ⟨?_, ?_⟩
    · intro k hk
      simp only [withPhase_phase] at hk
      show k ∈ insert n s.store
      by_cases hkn : k = n
      · subst hkn
        exact Finset.mem_insert_self k s.store
      · simp only [if_neg hkn] at hk
        exact Finset.mem_insert_of_mem (h1 k hk)
    · intro a b ha hb
      simp only [withPhase_phase] at ha hb
      by_cases han : a = n
      · simp [han] at ha
      · simp only [if_neg han] at ha
        by_cases hbn : b = n
        · simp [hbn] at hb
        · simp only [if_neg hbn] at hb
          exact h2 a b ha hb
  | postcheckPass n _ h hok =>
    refine ⟨?_, ?_⟩
    · intro k hk
      simp only [withPhase_phase] at hk
      show k ∈ s.store
      by_cases hkn : k = n
      · subst hkn
        exact h1 k (Or.inl h)
      · simp only [if_neg hkn] at hk
        exact h1 k hk
    · intro a b ha hb
      simp only [withPhase_phase] at ha hb
      by_cases han : a = n
      · by_cases hbn : b = n
        · rw [han, hbn]
        · simp only [if_neg hbn] at hb
          exact absurd (hok b (h1 b (Or.inr hb))) hbn
      · simp only [if_neg han] at ha
        by_cases hbn : b = n
        · exact absurd (hok a (h1 a (Or.inr ha))) han
        · simp only [if_neg hbn] at hb
          exact h2 a b ha hb
  | postcheckFail n _ h m hm hne =>
    refine ⟨?_, ?_⟩
    · intro k hk
      simp only [withPhase_phase] at hk
      show k ∈ s.store.erase n
      by_cases hkn : k = n
      · simp [hkn] at hk
      · simp only [if_neg hkn] at hk
        exact Finset.mem_erase.mpr ⟨hkn, h1 k hk⟩
    · intro a b ha hb
      simp only [withPhase_phase] at ha hb
      by_cases han : a = n
      · simp [han] at ha
      · simp only [if_neg han] at ha
        by_cases hbn : b = n
        · simp [hbn] at hb
        · simp only [if_neg hbn] at hb
          exact h2 a b ha hb

theorem acqReachable_inv {N : Nat} (st : AcqState N)
    (h : AcqReachable N st) : AcqInv st := by
  induction h with
  | refl => exact acqInv_init N
  | tail hr hstep ih => exact acqInv_step hstep ih

/-- Claim C1 (amended): in any reachable interleaving of N concurrent
exclusive acquisition calls, within a window in which no holder releases, at
most one call reaches success. -/
theorem acquire_mutual_exclusion {N : Nat} (st : AcqState N)
    (h : AcqReachable N st) :
    (Finset.univ.filter fun n => st.phase n = .succeeded).card ≤ 1 := by
  have hinv := acqReachable_inv st h
  refine Finset.card_le_one.mpr ?_
  intro a ha b hb
  rw [Finset.mem_filter] at ha hb
  exact hinv.2 a b ha.2 hb.2

/-- Intermediate states of the two-writer race: both acquirers pre-check
the empty store, then both publish. -/
def race1 : AcqState 2 := withPhase (acqInit 2) 0 .prechecked

def race2 : AcqState 2 := withPhase race1 1 .prechecked

def race3 : AcqState 2 :=
  { withPhase race2 0 .published with store := insert 0 race2.store }

def race4 : AcqState 2 :=
  { withPhase race3 1 .published with store := insert 1 race3.store }

/-- The race state: both exclusive descriptors present in the store at the
same instant, both acquirers published and none failed or succeeded yet. -/
def raceState : AcqState 2 := ⟨fun _ => .published, {0, 1}⟩

theorem acqState_ext {N : Nat} {a b : AcqState N}
    (h1 : ∀ k, a.phase k = b.phase k) (h2 : a.store = b.store) : a = b := by
  cases a
  cases b
  congr 1
  exact funext h1

theorem raceState_reachable : AcqReachable 2 raceState := by
  have e4 : race4 = raceState := acqState_ext (by decide) (by decide)
  have chain : AcqReachable 2 race4 :=
    Relation.ReflTransGen.tail
      (Relation.ReflTransGen.tail
        (Relation.ReflTransGen.tail
          (Relation.ReflTransGen.tail Relation.ReflTransGen.refl
            (AcqStep.precheckPass 0 (acqInit 2) (by decide)))
          (AcqStep.precheckPass 1 race1 (by decide)))
        (AcqStep.publish 0 race2 (by decide)))
      (AcqStep.publish 1 race3 (by decide))
  rwa [e4] at chain

/-- Claim C1 is false as stated: two exclusive acquirers can both pass the
pre-check against the not-yet-updated store and both publish, after which
two distinct exclusive lock descriptors are simultaneously present in the
store — and both are fresh, hence not classified stale.  This is precisely
the transient the post-check is designed to resolve (both callers then fail,
see the spec's two-writers scenario); what does hold is that at most one
call returns success, proved as `acquire_mutual_exclusion`. -/
theorem two_live_exclusive_descriptors_counterexample :
    AcqReachable 2 raceState
    ∧ (0 : Fin 2) ∈ raceState.store
    ∧ (1 : Fin 2) ∈ raceState.store
    ∧ (0 : Fin 2) ≠ (1 : Fin 2) :=
  ⟨raceState_reachable, by decide, by decide, by decide⟩

/-- Intermediate state of the uncontended run: acquirer 0 pre-checks and
publishes alone. -/
def succ2 : AcqState 2 :=
  { withPhase race1 0 .published with store := insert 0 race1.store }

/-- Final state of the uncontended run: acquirer 0 passes the post-check
and succeeds. -/
def succState : AcqState 2 := withPhase succ2 0 .succeeded

theorem succState_reachable : AcqReachable 2 succState :=
  Relation.ReflTransGen.tail
    (Relation.ReflTransGen.tail
      (Relation.ReflTransGen.tail Relation.ReflTransGen.refl
        (AcqStep.precheckPass 0 (acqInit 2) (by decide)))
      (AcqStep.publish 0 race1 (by decide)))
    (AcqStep.postcheckPass 0 succ2 (by decide) (by decide))

/-- Concrete instance of `acquire_mutual_exclusion` on a reachable state in
which acquirer 0 has succeeded. -/
theorem acquire_mutual_exclusion_witness :
    (Finset.univ.filter fun n => succState.phase n = .succeeded).card ≤ 1 :=
  acquire_mutual_exclusion succState succState_reachable

end ResticLock
